import Mathlib

/-!
Verification of the response-recovery pipeline and reasoning state machine of
the agentreasoning-sdk repository (src/agentic_reasoning_system.py).

The Python code is shallowly embedded: strings are Lean `String`s (worked on
as `List Char`), Python dicts recovered from JSON are association lists
`List (String × Json)` with Python-dict insertion semantics, floats are `Rat`,
and the external LLM (`LLMInterface.query`) is an oracle
`Nat → Except String String` mapping the index of the invocation to either the
generated text or the message of the exception it raised.
-/

namespace AgentReasoning

/-- Python whitespace characters recognised by `str.strip()`. -/
def isPyWs (c : Char) : Bool :=
  c = ' ' || c = '\t' || c = '\n' || c = '\r' || c = '\x0b' || c = '\x0c'

/-- JSON whitespace characters skipped by Python's `json` module. -/
def isJsonWs (c : Char) : Bool :=
  c = ' ' || c = '\t' || c = '\n' || c = '\r'

def dropLeadingWs : List Char → List Char
  | [] => []
  | c :: cs => if isPyWs c then dropLeadingWs cs else c :: cs

/-- `str.strip()`. -/
def pyStrip (s : List Char) : List Char :=
  (dropLeadingWs (dropLeadingWs s.reverse).reverse)

/-- ASCII lower-casing, as `str.lower()` acts on the ASCII inputs used here. -/
def pyLower (s : List Char) : List Char :=
  s.map fun c => if 'A' ≤ c ∧ c ≤ 'Z' then Char.ofNat (c.toNat + 32) else c

/-- Does `s` start with `p`? (`str.startswith`). -/
def listStartsWith (p s : List Char) : Bool :=
  List.isPrefixOf p s

/-- Does `s` end with `p`? (`str.endswith`). -/
def listEndsWith (p s : List Char) : Bool :=
  List.isSuffixOf p s

/-- `str.split('\n')`. -/
def splitOnNl (s : List Char) : List (List Char) :=
  List.splitOn '\n' s

/-- `'\n'.join(lines)`. -/
def joinNl : List (List Char) → List Char
  | [] => []
  | [l] => l
  | l :: ls => l ++ '\n' :: joinNl ls

/-- Python `str.replace(old, new)`: left-to-right, non-overlapping, all
occurrences.  `old` must be non-empty (as in all call sites). -/
def listReplace (old new : List Char) (s : List Char) : List Char :=
  go s.length s
where
  go : Nat → List Char → List Char
    | 0, rest => rest
    | _ + 1, [] => []
    | fuel + 1, c :: cs =>
      if List.isPrefixOf old (c :: cs) then
        new ++ go fuel (List.drop old.length (c :: cs))
      else
        c :: go fuel cs

/-- Index of the first occurrence of character `c` (`str.find`), `none` for -1. -/
def listFindChar (c : Char) (s : List Char) : Option Nat :=
  go 0 s
where
  go : Nat → List Char → Option Nat
    | _, [] => none
    | i, d :: ds => if d = c then some i else go (i + 1) ds

/-- Index of the last occurrence of character `c` (`str.rfind`), `none` for -1. -/
def listRfindChar (c : Char) (s : List Char) : Option Nat :=
  match listFindChar c s.reverse with
  | none => none
  | some i => some (s.length - 1 - i)

/-- `s.count(c)` for a single character. -/
def listCountChar (c : Char) (s : List Char) : Nat :=
  s.countP (· = c)

/-! ## JSON values and a model of Python's `json.loads` -/

/-- A JSON value as produced by `json.loads`.  Python represents objects as
insertion-ordered dicts; we use association lists with Python-dict insertion
(duplicate key: value replaced in place).  `nan`, `inf`, `negInf` model the
non-standard `NaN` / `Infinity` / `-Infinity` literals Python accepts. -/
inductive Json where
  | null : Json
  | bool (b : Bool) : Json
  | num (q : Rat) : Json
  | str (s : String) : Json
  | arr (xs : List Json) : Json
  | obj (kvs : List (String × Json)) : Json
  | nan : Json
  | inf : Json
  | negInf : Json

/-- `Record`: a recovered key-value mapping (a Python dict). -/
abbrev Record := List (String × Json)

/-- Python dict insertion: an existing key keeps its position and gets the new
value; a new key is appended. -/
def dictInsert (kvs : Record) (k : String) (v : Json) : Record :=
  if kvs.any (fun p => p.1 = k) then
    kvs.map (fun p => if p.1 = k then (k, v) else p)
  else
    kvs ++ [(k, v)]

/-- `d.get(k)` / `d[k]` on an association list built by `dictInsert`: the
value at the first (and only) occurrence of the key. -/
def dictGet (kvs : Record) (k : String) : Option Json :=
  match kvs with
  | [] => none
  | p :: ps => if p.1 = k then some p.2 else dictGet ps k

def skipJsonWs : List Char → List Char
  | [] => []
  | c :: cs => if isJsonWs c then skipJsonWs cs else c :: cs

def isDigitChar (c : Char) : Bool := '0' ≤ c ∧ c ≤ '9'

def readDigits : List Char → (List Char × List Char)
  | [] => ([], [])
  | c :: cs =>
    if isDigitChar c then
      let (ds, rest) := readDigits cs
      (c :: ds, rest)
    else
      ([], c :: cs)

def digitsToNat (ds : List Char) : Nat :=
  ds.foldl (fun acc c => acc * 10 + (c.toNat - '0'.toNat)) 0

/-- Parse a JSON number per RFC 8259 (`-?(0|[1-9][0-9]*)(\.[0-9]+)?([eE][+-]?[0-9]+)?`),
returning its exact rational value. -/
def parseJsonNumber (s : List Char) : Option (Rat × List Char) :=
  let (neg, s1) := match s with
    | '-' :: rest => (true, rest)
    | _ => (false, s)
  let (intDs, s2) := readDigits s1
  if intDs = [] then none
  else if intDs.length > 1 ∧ intDs.headI = '0' then none
  else
    let (fracDs, s3) := match s2 with
      | '.' :: rest =>
        let (ds, r) := readDigits rest
        (some ds, r)
      | _ => (none, s2)
    match fracDs with
    | some [] => none
    | _ =>
      let (expVal, s4) : Option Int × List Char := match s3 with
        | 'e' :: rest => readExp rest
        | 'E' :: rest => readExp rest
        | _ => (some 0, s3)
      match expVal with
      | none => none
      | some e =>
        let fds := fracDs.getD []
        let m : Nat := digitsToNat (intDs ++ fds)
        let sgnM : Int := if neg then -(Int.ofNat m) else Int.ofNat m
        let d : Int := e - Int.ofNat fds.length
        let q : Rat :=
          if 0 ≤ d then mkRat (sgnM * Int.ofNat (10 ^ d.toNat)) 1
          else mkRat sgnM (10 ^ (-d).toNat)
        some (q, s4)
where
  readExp (s : List Char) : Option Int × List Char :=
    let (sgn, s') : Int × List Char := match s with
      | '+' :: rest => (1, rest)
      | '-' :: rest => (-1, rest)
      | _ => (1, s)
    let (ds, rest) := readDigits s'
    if ds = [] then (none, rest) else (some (sgn * (digitsToNat ds : Int)), rest)

def hexVal (c : Char) : Option Nat :=
  if isDigitChar c then some (c.toNat - '0'.toNat)
  else if 'a' ≤ c ∧ c ≤ 'f' then some (c.toNat - 'a'.toNat + 10)
  else if 'A' ≤ c ∧ c ≤ 'F' then some (c.toNat - 'A'.toNat + 10)
  else none

/-- Parse the body of a JSON string (after the opening quote), handling the
escape sequences Python's `json` accepts; strict-mode rejection of raw control
characters. -/
def parseJsonStringBody : Nat → List Char → Option (List Char × List Char)
  | 0, _ => none
  | _ + 1, [] => none
  | fuel + 1, c :: cs =>
    if c = '"' then some ([], cs)
    else if c = '\\' then
      match cs with
      | [] => none
      | e :: cs' =>
        let simple : Option Char :=
          if e = '"' then some '"'
          else if e = '\\' then some '\\'
          else if e = '/' then some '/'
          else if e = 'b' then some '\x08'
          else if e = 'f' then some '\x0c'
          else if e = 'n' then some '\n'
          else if e = 'r' then some '\r'
          else if e = 't' then some '\t'
          else none
        match simple with
        | some ch =>
          match parseJsonStringBody fuel cs' with
          | some (out, rest) => some (ch :: out, rest)
          | none => none
        | none =>
          if e = 'u' then
            match cs' with
            | h1 :: h2 :: h3 :: h4 :: cs'' =>
              match hexVal h1, hexVal h2, hexVal h3, hexVal h4 with
              | some a, some b, some c3, some d =>
                let n := ((a * 16 + b) * 16 + c3) * 16 + d
                match parseJsonStringBody fuel cs'' with
                | some (out, rest) => some (Char.ofNat n :: out, rest)
                | none => none
              | _, _, _, _ => none
            | _ => none
          else none
    else if c.toNat < 0x20 then none
    else
      match parseJsonStringBody fuel cs with
      | some (out, rest) => some (c :: out, rest)
      | none => none

/-- Mode of the recursive-descent JSON reader: a single value, the members of
an object (accumulating a Python dict), or the elements of an array. -/
inductive PMode where
  | val : PMode
  | members (acc : Record) : PMode
  | elems (acc : List Json) : PMode

/-- Recursive-descent core of the model of Python `json.loads` (grammar of the
`json` module, including the non-standard `NaN` / `Infinity` / `-Infinity`).
Fuel-structural so that concrete runs reduce in the kernel. -/
def parseJsonCore : Nat → PMode → List Char → Option (Json × List Char)
  | 0, _, _ => none
  | fuel + 1, .val, cs =>
    match cs with
    | [] => none
    | c :: cs' =>
      if c = '{' then
        match skipJsonWs cs' with
        | '}' :: rest => some (Json.obj [], rest)
        | cs'' => parseJsonCore fuel (.members []) cs''
      else if c = '[' then
        match skipJsonWs cs' with
        | ']' :: rest => some (Json.arr [], rest)
        | cs'' => parseJsonCore fuel (.elems []) cs''
      else if c = '"' then
        match parseJsonStringBody (cs'.length + 1) cs' with
        | some (body, rest) => some (Json.str body.asString, rest)
        | none => none
      else if listStartsWith ['t', 'r', 'u', 'e'] cs then
        some (Json.bool true, cs.drop 4)
      else if listStartsWith ['f', 'a', 'l', 's', 'e'] cs then
        some (Json.bool false, cs.drop 5)
      else if listStartsWith ['n', 'u', 'l', 'l'] cs then
        some (Json.null, cs.drop 4)
      else if listStartsWith ['N', 'a', 'N'] cs then
        some (Json.nan, cs.drop 3)
      else if listStartsWith ['I', 'n', 'f', 'i', 'n', 'i', 't', 'y'] cs then
        some (Json.inf, cs.drop 8)
      else if listStartsWith ['-', 'I', 'n', 'f', 'i', 'n', 'i', 't', 'y'] cs then
        some (Json.negInf, cs.drop 9)
      else
        match parseJsonNumber cs with
        | some (q, rest) => some (Json.num q, rest)
        | none => none
  | fuel + 1, .members acc, cs =>
    match cs with
    | '"' :: cs' =>
      match parseJsonStringBody (cs'.length + 1) cs' with
      | some (key, rest1) =>
        match skipJsonWs rest1 with
        | ':' :: rest2 =>
          match parseJsonCore fuel .val (skipJsonWs rest2) with
          | some (v, rest3) =>
            let acc' := dictInsert acc key.asString v
            match skipJsonWs rest3 with
            | ',' :: rest4 => parseJsonCore fuel (.members acc') (skipJsonWs rest4)
            | '}' :: rest4 => some (Json.obj acc', rest4)
            | _ => none
          | none => none
        | _ => none
      | none => none
    | _ => none
  | fuel + 1, .elems acc, cs =>
    match parseJsonCore fuel .val cs with
    | some (v, rest) =>
      match skipJsonWs rest with
      | ',' :: rest' => parseJsonCore fuel (.elems (acc ++ [v])) (skipJsonWs rest')
      | ']' :: rest' => some (Json.arr (acc ++ [v]), rest')
      | _ => none
    | none => none

def parseJsonValue (fuel : Nat) (cs : List Char) : Option (Json × List Char) :=
  parseJsonCore fuel .val cs

/-- Model of Python `json.loads`: parse one value, reject trailing data
("Extra data"). `none` models a raised `json.JSONDecodeError`. -/
def jsonLoadsL (s : List Char) : Option Json :=
  match parseJsonValue (s.length + 1) (skipJsonWs s) with
  | some (j, rest) => if skipJsonWs rest = [] then some j else none
  | none => none

def jsonLoads (s : String) : Option Json :=
  jsonLoadsL s.toList

/-! ## Models of the `re.sub` based repair transforms

Each function models one specific Python regular-expression substitution from
`src/agentic_reasoning_system.py`, with `re.sub`'s left-to-right,
non-overlapping scan: at each position the pattern is tried; on failure the
character is copied and the scan advances by one; on success the replacement
is emitted and the scan resumes after the matched span. -/

def isDelim (c : Char) : Bool := c = ',' || c = '}' || c = ']'

def isAsciiAlpha (c : Char) : Bool := ('a' ≤ c ∧ c ≤ 'z') || ('A' ≤ c ∧ c ≤ 'Z')

def isIdentStart (c : Char) : Bool := isAsciiAlpha c || c = '_'

def isIdentChar (c : Char) : Bool := isIdentStart c || isDigitChar c

/-- Model of `re.sub(r',(\s*[}\]])', r'\1', s)`: drop a comma standing before
a closing brace or bracket (possibly across whitespace).
Used at `_fix_json_string` step 1, `_fix_and_parse_json` step 2.1,
`_aggressive_json_fix` step 4, `_parse_relaxed_json`. -/
def removeTrailingCommas (s : List Char) : List Char :=
  go s.length s
where
  go : Nat → List Char → List Char
    | 0, rest => rest
    | _ + 1, [] => []
    | fuel + 1, c :: cs =>
      if c = ',' then
        let ws := cs.takeWhile isPyWs
        let rest := cs.dropWhile isPyWs
        match rest with
        | d :: rest' =>
          if d = '}' || d = ']' then ws ++ d :: go fuel rest'
          else c :: go fuel cs
        | [] => c :: go fuel cs
      else c :: go fuel cs

/-- Model of `re.sub(r'([{,]\s*)([a-zA-Z_][a-zA-Z0-9_]*)(\s*:)', r'\1"\2"\3', s)`:
wrap an unquoted identifier key in double quotes.
Used at `_fix_json_string` step 3, `_fix_and_parse_json` step 2.2,
`_aggressive_json_fix` step 5. -/
def quoteKeys (s : List Char) : List Char :=
  go s.length s
where
  go : Nat → List Char → List Char
    | 0, rest => rest
    | _ + 1, [] => []
    | fuel + 1, c :: cs =>
      if c = '{' || c = ',' then
        let ws1 := cs.takeWhile isPyWs
        let r1 := cs.dropWhile isPyWs
        let ident := r1.takeWhile isIdentChar
        let r2 := r1.dropWhile isIdentChar
        let ws2 := r2.takeWhile isPyWs
        let r3 := r2.dropWhile isPyWs
        match ident, r3 with
        | ich :: _, ':' :: r4 =>
          if isIdentStart ich then
            c :: ws1 ++ '"' :: ident ++ '"' :: ws2 ++ ':' :: go fuel r4
          else c :: go fuel cs
        | _, _ => c :: go fuel cs
      else c :: go fuel cs

/-- Model of `re.sub(r'([{,]\s*)(\w+):', r'\1"\2":', json_str)` in
`_parse_relaxed_json`: like `quoteKeys` but the key may start with a digit
and no whitespace is allowed before the colon. -/
def quoteKeysRelaxed (s : List Char) : List Char :=
  go s.length s
where
  go : Nat → List Char → List Char
    | 0, rest => rest
    | _ + 1, [] => []
    | fuel + 1, c :: cs =>
      if c = '{' || c = ',' then
        let ws1 := cs.takeWhile isPyWs
        let r1 := cs.dropWhile isPyWs
        let ident := r1.takeWhile isIdentChar
        let r2 := r1.dropWhile isIdentChar
        match ident, r2 with
        | _ :: _, ':' :: r3 =>
          c :: ws1 ++ '"' :: ident ++ '"' :: ':' :: go fuel r3
        | _, _ => c :: go fuel cs
      else c :: go fuel cs

/-- Model of `convert_single_quoted_strings` inside `_fix_json_string`
(lines 397-428): an explicit index walk converting a single-quoted span to a
double-quoted one, escaping inner double quotes; a backslash inside the span
skips the following character; with no closing quote the single quote is kept
and the walk resumes right after it. -/
def scanSQClose (t : List Char) : Nat → Nat → Nat
  | 0, k => k
  | fuel + 1, k =>
    if k < t.length then
      let c := t.getD k ' '
      if c = '\'' then k
      else if c = '\\' then scanSQClose t fuel (k + 2)
      else scanSQClose t fuel (k + 1)
    else k

def convertSingleQuotedStrings (t : List Char) : List Char :=
  go (t.length + 1) 0
where
  go : Nat → Nat → List Char
    | 0, _ => []
    | fuel + 1, i =>
      if i < t.length then
        let c := t.getD i ' '
        if c = '\'' then
          let j := scanSQClose t (t.length + 1) (i + 1)
          if j < t.length then
            let content := (t.drop (i + 1)).take (j - (i + 1))
            let content := listReplace ['"'] ['\\', '"'] content
            '"' :: content ++ '"' :: go fuel (j + 1)
          else
            '\'' :: go fuel (i + 1)
        else c :: go fuel (i + 1)
      else []

/-- Model of `re.sub(r'(:\s*")([^"]*)"(\s*[,}\]])', f, s)` where the
replacement callback returns group 1, a quote, the escaped group 2, a quote,
then group 3.  Since
group 1 already contains the opening quote and group 2 cannot contain a
quote, the replacement inserts one extra double quote after the opening one
(and the escaping of group 2 is a no-op).
Used at `_fix_json_string` step 5 (`fix_inner_quotes`) and
`_fix_and_parse_json` step 2.4 (`fix_unescaped_quotes`). -/
def fixValueQuotes (s : List Char) : List Char :=
  go s.length s
where
  go : Nat → List Char → List Char
    | 0, rest => rest
    | _ + 1, [] => []
    | fuel + 1, c :: cs =>
      if c = ':' then
        let ws1 := cs.takeWhile isPyWs
        let r1 := cs.dropWhile isPyWs
        match r1 with
        | '"' :: r2 =>
          let content := r2.takeWhile (fun d => d ≠ '"')
          let r3 := r2.dropWhile (fun d => d ≠ '"')
          match r3 with
          | '"' :: r4 =>
            let ws2 := r4.takeWhile isPyWs
            let r5 := r4.dropWhile isPyWs
            match r5 with
            | d :: r6 =>
              if isDelim d then
                ':' :: ws1 ++ '"' :: '"' :: content ++ '"' :: ws2 ++ d :: go fuel r6
              else c :: go fuel cs
            | [] => c :: go fuel cs
          | _ => c :: go fuel cs
        | _ => c :: go fuel cs
      else c :: go fuel cs

/-- Model of `re.sub(r"'([^']*)'", fix_single_quotes, cleaned)` at
`_fix_and_parse_json` step 2.3: replace a single-quoted span (no escape
handling) by a double-quoted one, escaping inner double quotes. -/
def singleToDoubleQuotes (s : List Char) : List Char :=
  go s.length s
where
  go : Nat → List Char → List Char
    | 0, rest => rest
    | _ + 1, [] => []
    | fuel + 1, c :: cs =>
      if c = '\'' then
        let content := cs.takeWhile (fun d => d ≠ '\'')
        let r1 := cs.dropWhile (fun d => d ≠ '\'')
        match r1 with
        | '\'' :: r2 =>
          let content := listReplace ['"'] ['\\', '"'] content
          '"' :: content ++ '"' :: go fuel r2
        | _ => c :: go fuel cs
      else c :: go fuel cs

/-- Model of `re.sub(r'([^"\\])\.\.\."\s*([,}\]])', r'\1..."\2', cleaned)` at
`_fix_and_parse_json` step 2.5: the whitespace between the `..."` and the
closing delimiter is dropped. -/
def fixEllipsis (s : List Char) : List Char :=
  go s.length s
where
  go : Nat → List Char → List Char
    | 0, rest => rest
    | _ + 1, [] => []
    | fuel + 1, c :: cs =>
      if c ≠ '"' ∧ c ≠ '\\' ∧ listStartsWith ['.', '.', '.', '"'] cs then
        let r1 := cs.drop 4
        let r2 := r1.dropWhile isPyWs
        match r2 with
        | d :: r3 =>
          if isDelim d then
            c :: '.' :: '.' :: '.' :: '"' :: d :: go fuel r3
          else c :: go fuel cs
        | [] => c :: go fuel cs
      else c :: go fuel cs

/-- Model of `re.sub(r':\s*([a-zA-Z][^,}\]]*[^,}\]\s])(\s*[,}\]])', r': "\1"\2', cleaned)`
at `_fix_and_parse_json` step 2.6: quote a bare value that starts with a
letter; the value runs to the last non-whitespace character before the next
closing delimiter and must be at least two characters long. -/
def quoteBareValues (s : List Char) : List Char :=
  go s.length s
where
  dropTrailingWs (l : List Char) : List Char :=
    (l.reverse.dropWhile isPyWs).reverse
  go : Nat → List Char → List Char
    | 0, rest => rest
    | _ + 1, [] => []
    | fuel + 1, c :: cs =>
      if c = ':' then
        let r1 := cs.dropWhile isPyWs
        match r1 with
        | a :: r2 =>
          if isAsciiAlpha a then
            let seg := r2.takeWhile (fun d => ¬ isDelim d)
            let rest2 := r2.drop seg.length
            match rest2 with
            | d :: r3 =>
              let core := dropTrailingWs seg
              let trailWs := seg.drop core.length
              if core.isEmpty then c :: go fuel cs
              else
                ':' :: ' ' :: '"' :: a :: core ++ '"' :: trailWs ++ d :: go fuel r3
            | [] => c :: go fuel cs
          else c :: go fuel cs
        | [] => c :: go fuel cs
      else c :: go fuel cs

/-- Model of `re.sub(r':\s*"(true|false|null)"\s*([,}\]])', r': \1\2', s)`:
unquote a quoted boolean or null, normalising the surrounding whitespace away.
Used at `_fix_and_parse_json` step 2.7 and `_aggressive_json_fix` step 6. -/
def unquoteBoolNull (s : List Char) : List Char :=
  go s.length s
where
  lit (r : List Char) : Option (List Char × List Char) :=
    if listStartsWith ['t', 'r', 'u', 'e'] r then some (['t','r','u','e'], r.drop 4)
    else if listStartsWith ['f','a','l','s','e'] r then some (['f','a','l','s','e'], r.drop 5)
    else if listStartsWith ['n','u','l','l'] r then some (['n','u','l','l'], r.drop 4)
    else none
  go : Nat → List Char → List Char
    | 0, rest => rest
    | _ + 1, [] => []
    | fuel + 1, c :: cs =>
      if c = ':' then
        let r1 := cs.dropWhile isPyWs
        match r1 with
        | '"' :: r2 =>
          match lit r2 with
          | some (w, r3) =>
            match r3 with
            | '"' :: r4 =>
              let r5 := r4.dropWhile isPyWs
              match r5 with
              | d :: r6 =>
                if isDelim d then ':' :: ' ' :: w ++ d :: go fuel r6
                else c :: go fuel cs
              | [] => c :: go fuel cs
            | _ => c :: go fuel cs
          | none => c :: go fuel cs
        | _ => c :: go fuel cs
      else c :: go fuel cs

/-- Model of `re.sub(r':\s*"(\d+\.?\d*)"(\s*[,}\]])', r': \1\2', s)`: unquote
a quoted number (the whitespace before the delimiter is kept, the whitespace
after the colon is normalised to one space).
Used at `_fix_and_parse_json` step 2.8 and `_aggressive_json_fix` step 7. -/
def unquoteNumbers (s : List Char) : List Char :=
  go s.length s
where
  go : Nat → List Char → List Char
    | 0, rest => rest
    | _ + 1, [] => []
    | fuel + 1, c :: cs =>
      if c = ':' then
        let r1 := cs.dropWhile isPyWs
        match r1 with
        | '"' :: r2 =>
          let ds1 := r2.takeWhile isDigitChar
          let r3 := r2.dropWhile isDigitChar
          if ds1.isEmpty then c :: go fuel cs
          else
            let (dot, r4) : List Char × List Char := match r3 with
              | '.' :: r4' => (['.'], r4')
              | _ => ([], r3)
            let ds2 := r4.takeWhile isDigitChar
            let r5 := r4.dropWhile isDigitChar
            match r5 with
            | '"' :: r6 =>
              let ws2 := r6.takeWhile isPyWs
              let r7 := r6.dropWhile isPyWs
              match r7 with
              | d :: r8 =>
                if isDelim d then
                  ':' :: ' ' :: ds1 ++ dot ++ ds2 ++ ws2 ++ d :: go fuel r8
                else c :: go fuel cs
              | [] => c :: go fuel cs
            | _ => c :: go fuel cs
        | _ => c :: go fuel cs
      else c :: go fuel cs

/-- Model of `re.sub(r'"([^"]+)":\s*"([^"]*(?:\\.[^"]*)*)"', fix_string_content, cleaned)`
at `_aggressive_json_fix` step 3.  Under the regex engine's greedy scan the
value group always stops at the first double quote after the opening one (the
`[^"]*` branch consumes backslashes), so the substitution normalises
`":\s*"` to `": "` and the escaping callback is a no-op. -/
def fixStringContent (s : List Char) : List Char :=
  go s.length s
where
  go : Nat → List Char → List Char
    | 0, rest => rest
    | _ + 1, [] => []
    | fuel + 1, c :: cs =>
      if c = '"' then
        let key := cs.takeWhile (fun d => d ≠ '"')
        let r1 := cs.dropWhile (fun d => d ≠ '"')
        match key, r1 with
        | _ :: _, '"' :: ':' :: r2 =>
          let r3 := r2.dropWhile isPyWs
          match r3 with
          | '"' :: r4 =>
            let v := r4.takeWhile (fun d => d ≠ '"')
            let r5 := r4.dropWhile (fun d => d ≠ '"')
            match r5 with
            | '"' :: r6 =>
              '"' :: key ++ '"' :: ':' :: ' ' :: '"' :: v ++ '"' :: go fuel r6
            | _ => c :: go fuel cs
          | _ => c :: go fuel cs
        | _, _ => c :: go fuel cs
      else c :: go fuel cs

/-- Model of the three substitutions
`re.sub(r'(?<!\\)\n', '\\n', s)` (and likewise for `\r`, `\t`) at
`_aggressive_json_fix` step 2.  The replacement argument `'\\n'` is the
two-character template `\n`, which `re.sub` interprets as a literal newline
(and likewise `\r`, `\t`), so each substitution replaces the matched
character by itself: the step is the identity transform. -/
def escapeBareWhitespace (t : List Char) : List Char := t

/-! ## The repair and extraction routines of `LLMInterface` -/

/-- Placeholder used by `_fix_json_string` / `_fix_and_parse_json`. -/
def phQ : List Char := "___ESCAPED_QUOTE___".toList
def phSQ : List Char := "___ESCAPED_SINGLE_QUOTE___".toList
def phBS : List Char := "___ESCAPED_BACKSLASH___".toList
def phNL : List Char := "___ESCAPED_NEWLINE___".toList
def phRET : List Char := "___ESCAPED_RETURN___".toList
def phTAB : List Char := "___ESCAPED_TAB___".toList
def phSL : List Char := "___ESCAPED_SLASH___".toList

/-- `LLMInterface._fix_json_string` (lines 383-450): trailing-comma removal,
escape protection, single-to-double quote conversion, key quoting, escape
restoration (note: an escaped single quote `\'` is restored as a bare `'`),
then the `fix_inner_quotes` substitution. -/
def fixJsonString (jsonStr : List Char) : List Char :=
  let s := removeTrailingCommas jsonStr
  let s := listReplace ['\\', '"'] phQ s
  let s := listReplace ['\\', '\''] phSQ s
  let s := convertSingleQuotedStrings s
  let s := quoteKeys s
  let s := listReplace phQ ['\\', '"'] s
  let s := listReplace phSQ ['\''] s
  fixValueQuotes s

/-- `line and ':' in line and not line.endswith((',', '}', ']'))` on the
stripped line: the test for a trailing incomplete key-value fragment. -/
def isIncompleteLine (l : List Char) : Bool :=
  let t := pyStrip l
  !t.isEmpty && t.contains ':' &&
    !(listEndsWith [','] t || listEndsWith ['}'] t || listEndsWith [']'] t)

/-- The backwards line scan of `_aggressive_json_fix` (lines 503-510) and of
`_fix_and_parse_json`'s failure branch (lines 669-674): drop everything from
the last line that looks like an incomplete key-value pair onwards.  (In the
second occurrence the `line` truthiness test is missing, but `':' in line`
already implies the line is non-empty, so the predicates agree.) -/
def dropIncompleteTail (lines : List (List Char)) : List (List Char) :=
  match (List.range lines.length).reverse.find? (fun i => isIncompleteLine (lines.getD i [])) with
  | some i => lines.take i
  | none => lines

/-- `LLMInterface._aggressive_json_fix` (lines 452-525).  Always returns a
value (the minimal error object at worst): the Python function has no raise
path. -/
def aggressiveJsonFix (jsonStr : List Char) : Json :=
  let cleaned := pyStrip jsonStr
  let cleaned := match listFindChar '{' cleaned, listRfindChar '}' cleaned with
    | some st, some en => if st < en then (cleaned.drop st).take (en + 1 - st) else cleaned
    | _, _ => cleaned
  let cleaned := listReplace ['\\', '\\'] ['\\'] cleaned
  let cleaned := escapeBareWhitespace cleaned
  let cleaned := fixStringContent cleaned
  let cleaned := removeTrailingCommas cleaned
  let cleaned := quoteKeys cleaned
  let cleaned := unquoteBoolNull cleaned
  let cleaned := unquoteNumbers cleaned
  let ob := listCountChar '{' cleaned
  let cb := listCountChar '}' cleaned
  let cleaned := if cb < ob then cleaned ++ List.replicate (ob - cb) '}' else cleaned
  let cleaned := joinNl (dropIncompleteTail (splitOnNl cleaned))
  let cleaned := if listEndsWith ['}'] cleaned then cleaned else cleaned ++ ['}']
  match jsonLoadsL cleaned with
  | some j => j
  | none =>
    Json.obj [
      ("error", Json.str "json_parsing_failed"),
      ("original_content", Json.str (jsonStr.take 100).asString),
      ("confidence", Json.num 0),
      ("solution", Json.str "Failed to parse JSON response")]

/-- `LLMInterface._clean_json_response` (lines 527-565): strip, code-fence
removal, then case-insensitive removal of known prefixes and suffixes. -/
def cleanJsonResponse (response : List Char) : List Char :=
  let r := pyStrip response
  let r :=
    if listStartsWith ['`', '`', '`'] r then
      let lines := splitOnNl r
      if 2 < lines.length then joinNl ((lines.drop 1).dropLast) else r
    else r
  let pres : List (List Char) :=
    ["Here's the JSON response:", "JSON response:", "Response:", "```json", "```",
     "Here is the JSON:", "The JSON is:", "JSON:"].map String.toList
  let r := pres.foldl (fun acc p =>
    if listStartsWith (pyLower p) (pyLower acc) then pyStrip (acc.drop p.length) else acc) r
  let sufs : List (List Char) :=
    ["```", "That's the JSON response.", "This is the JSON."].map String.toList
  sufs.foldl (fun acc p =>
    if listEndsWith (pyLower p) (pyLower acc) then pyStrip (acc.take (acc.length - p.length)) else acc) r

/-- The index walk of `_extract_json_object` (lines 334-366): starting from
the first `{`, track brace depth and whether the scan is inside a quoted
string (a backslash there skips the next character); return the span from the
first `{` to the matching top-level `}` inclusive. -/
def extractJsonSpan (t : List Char) : Option (List Char) :=
  match listFindChar '{' t with
  | none => none
  | some st =>
    match go (t.length + 1) st 0 false with
    | some i => some ((t.drop st).take (i + 1 - st))
    | none => none
where
  go : Nat → Nat → Nat → Bool → Option Nat
    | 0, _, _, _ => none
    | fuel + 1, i, braceCount, inString =>
      if i < t.length then
        let c := t.getD i ' '
        if inString then
          if c = '\\' then go fuel (i + 2) braceCount true
          else if c = '"' then go fuel (i + 1) braceCount false
          else go fuel (i + 1) braceCount true
        else
          if c = '"' then go fuel (i + 1) braceCount true
          else if c = '{' then go fuel (i + 1) (braceCount + 1) false
          else if c = '}' then
            if braceCount = 1 then some i
            else go fuel (i + 1) (braceCount - 1) false
          else go fuel (i + 1) braceCount false
      else none

/-- `LLMInterface._extract_json_object` (lines 332-381): extract the span,
then `json.loads` it, falling back to `_fix_json_string` and then to
`_aggressive_json_fix` (which always succeeds).  `none` models the raised
`ValueError` when no complete object is found. -/
def extractJsonObject (t : List Char) : Option Json :=
  match extractJsonSpan t with
  | none => none
  | some jsonStr =>
    match jsonLoadsL jsonStr with
    | some j => some j
    | none =>
      match jsonLoadsL (fixJsonString jsonStr) with
      | some j => some j
      | none => some (aggressiveJsonFix jsonStr)

/-- Helper for `extractFromCodeBlocks`: the lazy `.*?` of the pattern — find
the first `}` at or after index `j` of `r` that is followed by optional
whitespace and three backticks. -/
def cbFindClose (r : List Char) : Nat → Nat → Option Nat
  | 0, _ => none
  | fuel + 1, j =>
    if j < r.length then
      if r.getD j ' ' = '}' ∧
          listStartsWith ['`', '`', '`'] ((r.drop (j + 1)).dropWhile isPyWs) then
        some j
      else cbFindClose r fuel (j + 1)
    else none

/-- `LLMInterface._extract_from_code_blocks` (lines 567-578):
`re.search(r'```(?:json)?\s*(\{.*?\})\s*```', response, re.DOTALL)` and
`json.loads` of group 1; `none` models the raised `ValueError` /
`JSONDecodeError`. -/
def extractFromCodeBlocks (t : List Char) : Option Json :=
  match go (t.length + 1) t with
  | some span => jsonLoadsL span
  | none => none
where
  go : Nat → List Char → Option (List Char)
    | 0, _ => none
    | _ + 1, [] => none
    | fuel + 1, c :: cs =>
      if c = '`' ∧ listStartsWith ['`', '`'] cs then
        let afterTicks := cs.drop 2
        let afterJson :=
          if listStartsWith ['j', 's', 'o', 'n'] afterTicks then afterTicks.drop 4 else afterTicks
        let r := afterJson.dropWhile isPyWs
        match r with
        | '{' :: _ =>
          match cbFindClose r (r.length + 1) 1 with
          | some k => some (r.take (k + 1))
          | none => go fuel cs
        | _ => go fuel cs
      else go fuel cs

/-- `LLMInterface._fix_and_parse_json`, lines 580-661: the value of `cleaned`
at the first parse attempt (line 665) — strip and slice to the
brace-delimited region, protect the known escape sequences, apply the
substitutions of step 2 in order, append the missing closing braces, restore
the escapes. -/
def fixAndParseJsonCleaned (response : List Char) : List Char :=
  let cleaned := pyStrip response
  let cleaned := match listFindChar '{' cleaned with
    | some idx => if 0 < idx then cleaned.drop idx else cleaned
    | none => cleaned
  let cleaned := match listRfindChar '}' cleaned with
    | some idx => cleaned.take (idx + 1)
    | none => cleaned
  let cleaned := listReplace ['\\', '"'] phQ cleaned
  let cleaned := listReplace ['\\', '\\'] phBS cleaned
  let cleaned := listReplace ['\\', 'n'] phNL cleaned
  let cleaned := listReplace ['\\', 'r'] phRET cleaned
  let cleaned := listReplace ['\\', 't'] phTAB cleaned
  let cleaned := listReplace ['\\', '/'] phSL cleaned
  let cleaned := removeTrailingCommas cleaned
  let cleaned := quoteKeys cleaned
  let cleaned := singleToDoubleQuotes cleaned
  let cleaned := fixValueQuotes cleaned
  let cleaned := fixEllipsis cleaned
  let cleaned := quoteBareValues cleaned
  let cleaned := unquoteBoolNull cleaned
  let cleaned := unquoteNumbers cleaned
  let ob := listCountChar '{' cleaned
  let cb := listCountChar '}' cleaned
  let cleaned := if cb < ob then cleaned ++ List.replicate (ob - cb) '}' else cleaned
  let cleaned := listReplace phQ ['\\', '"'] cleaned
  let cleaned := listReplace phBS ['\\', '\\'] cleaned
  let cleaned := listReplace phNL ['\\', 'n'] cleaned
  let cleaned := listReplace phRET ['\\', 'r'] cleaned
  let cleaned := listReplace phTAB ['\\', 't'] cleaned
  listReplace phSL ['\\', '/'] cleaned

/-- `_fix_and_parse_json`, lines 667-678: the value of `cleaned` at the
second parse attempt, reached only when the first parse fails — drop the
trailing incomplete lines and close the object if needed. -/
def fixAndParseJsonDropped (response : List Char) : List Char :=
  let cleaned := joinNl (dropIncompleteTail (splitOnNl (fixAndParseJsonCleaned response)))
  if listEndsWith ['}'] cleaned then cleaned else cleaned ++ ['}']

/-- `LLMInterface._fix_and_parse_json` (lines 580-684): parse the cleaned
text; on failure re-parse after dropping the trailing incomplete lines; on
failure delegate to `_aggressive_json_fix`.  Total: the Python function never
raises. -/
def fixAndParseJson (response : List Char) : Json :=
  match jsonLoadsL (fixAndParseJsonCleaned response) with
  | some j => j
  | none =>
    match jsonLoadsL (fixAndParseJsonDropped response) with
    | some j => j
    | none => aggressiveJsonFix (fixAndParseJsonDropped response)

/-- `findall` of `r'\{[^{}]*(?:\{[^{}]*\}[^{}]*)*\}'` (non-overlapping). -/
def mixedP1Matches (t : List Char) : List (List Char) :=
  go t.length t
where
  loop : Nat → List Char → List Char → Option (List Char × List Char)
    | 0, _, _ => none
    | _ + 1, acc, '}' :: rest => some (acc ++ ['}'], rest)
    | fuel + 1, acc, '{' :: r2 =>
      let inner := r2.takeWhile (fun c => c ≠ '{' ∧ c ≠ '}')
      let r3 := r2.drop inner.length
      match r3 with
      | '}' :: r4 =>
        let after := r4.takeWhile (fun c => c ≠ '{' ∧ c ≠ '}')
        let r5 := r4.drop after.length
        loop fuel (acc ++ '{' :: inner ++ '}' :: after) r5
      | _ => none
    | _ + 1, _, _ => none
  go : Nat → List Char → List (List Char)
    | 0, _ => []
    | _ + 1, [] => []
    | fuel + 1, c :: cs =>
      if c = '{' then
        let seg := cs.takeWhile (fun d => d ≠ '{' ∧ d ≠ '}')
        let r1 := cs.drop seg.length
        match loop (cs.length + 1) ('{' :: seg) r1 with
        | some (span, rest) => span :: go fuel rest
        | none => go fuel cs
      else go fuel cs

/-- `findall` of `r'\{.*?\}'` with `re.DOTALL` (non-overlapping, lazy: each
match runs from a `{` to the first `}` after it). -/
def mixedP2Matches (t : List Char) : List (List Char) :=
  go t.length t
where
  go : Nat → List Char → List (List Char)
    | 0, _ => []
    | _ + 1, [] => []
    | fuel + 1, c :: cs =>
      if c = '{' then
        let seg := cs.takeWhile (fun d => d ≠ '}')
        let r := cs.drop seg.length
        match r with
        | '}' :: rest => ('{' :: seg ++ ['}']) :: go fuel rest
        | _ => go fuel cs
      else go fuel cs

/-- `LLMInterface._extract_json_from_mixed_content` (lines 686-704): try
`json.loads` on every match of the two patterns in order; `none` models the
raised `ValueError`. -/
def extractJsonFromMixedContent (t : List Char) : Option Json :=
  match firstParsed (mixedP1Matches t) with
  | some j => some j
  | none => firstParsed (mixedP2Matches t)
where
  firstParsed : List (List Char) → Option Json
    | [] => none
    | m :: ms =>
      match jsonLoadsL m with
      | some j => some j
      | none => firstParsed ms

/-- `LLMInterface._parse_relaxed_json` (lines 706-736): naive (not
string-aware) brace counting from the first `{`, then trailing-comma removal
and `\w+` key quoting, then `json.loads`. When the braces never rebalance the
slice is empty (`end` stays at `start`). -/
def parseRelaxedJson (response : List Char) : Option Json :=
  let cleaned := pyStrip response
  match listFindChar '{' cleaned with
  | none => none
  | some start =>
    let endIdx := go cleaned (cleaned.length + 1) start start 0
    let jsonStr := (cleaned.drop start).take (endIdx - start)
    let jsonStr := removeTrailingCommas jsonStr
    let jsonStr := quoteKeysRelaxed jsonStr
    jsonLoadsL jsonStr
where
  go (cleaned : List Char) : Nat → Nat → Nat → Nat → Nat
    | 0, start, _, _ => start
    | fuel + 1, start, i, bc =>
      if i < cleaned.length then
        let c := cleaned.getD i ' '
        if c = '{' then go cleaned fuel start (i + 1) (bc + 1)
        else if c = '}' then
          if bc = 1 then i + 1 else go cleaned fuel start (i + 1) (bc - 1)
        else go cleaned fuel start (i + 1) bc
      else start

/-- The `isinstance(result, dict) and result` acceptance test applied to each
parsing strategy's outcome in `query_json` (line 210): a raised error
(`none`), a non-object value, or an empty object all count as failure. -/
def acceptRecord : Option Json → Option Record
  | some (Json.obj kvs) => if kvs.isEmpty then none else some kvs
  | _ => none

/-- The eight parsing strategies of `query_json` (lines 188-205), in order;
each entry is the strategy's raw outcome (`none` = raised). -/
def strategyResults (r : List Char) : List (Option Json) :=
  [jsonLoadsL (pyStrip r),
   extractJsonObject r,
   jsonLoadsL (cleanJsonResponse r),
   extractFromCodeBlocks r,
   some (fixAndParseJson r),
   extractJsonFromMixedContent r,
   parseRelaxedJson r,
   jsonLoadsL (pyStrip (listReplace ['\t'] [' '] (listReplace ['\n'] [' '] r)))]

/-- The strategy loop of `query_json` (lines 207-215): first strategy whose
outcome passes the `isinstance(result, dict) and result` test. -/
def tryStrategies (r : List Char) : Option Record :=
  (strategyResults r).foldl (fun acc res => acc <|> acceptRecord res) none

/-! ## The fallback record builder (`_create_fallback_response`, lines 738-819) -/

/-- The literal default record of `_create_fallback_response` (lines 743-780),
keys in source order. -/
def fallbackBase (originalResponse : List Char) : Record :=
  [("error", Json.str "json_parsing_failed"),
   ("original_response",
     Json.str (if originalResponse.isEmpty then "No response"
               else (originalResponse.take 500).asString)),
   ("confidence", Json.num (mkRat 1 10)),
   ("solution", Json.str "JSON parsing failed - using fallback response"),
   ("reasoning_steps", Json.arr [Json.str "Failed to parse LLM response as JSON"]),
   ("compliance_score", Json.num 0),
   ("r1_compliance", Json.bool false),
   ("r2_compliance", Json.bool false),
   ("c1_compliance", Json.bool false),
   ("c2_compliance", Json.bool false),
   ("c3_compliance", Json.bool false),
   ("overall_t1_compliance", Json.bool false),
   ("u1_compliance", Json.bool false),
   ("u2_compliance", Json.bool false),
   ("c4_compliance", Json.bool false),
   ("c5_compliance", Json.bool false),
   ("c6_compliance", Json.bool false),
   ("overall_tu_compliance", Json.bool false),
   ("e1_compliance", Json.bool false),
   ("e2_compliance", Json.bool false),
   ("e3_compliance", Json.bool false),
   ("overall_tustar_compliance", Json.bool false),
   ("verification_passed", Json.bool false),
   ("verification_score", Json.num 0),
   ("should_revise", Json.bool true),
   ("confidence_assessment", Json.str "Low"),
   ("potential_errors", Json.arr [Json.str "JSON parsing failed"]),
   ("reasoning_quality_score", Json.num (mkRat 1 10)),
   ("uncertainty_sources", Json.arr [Json.str "Failed to parse response"]),
   ("causal_fidelity_score", Json.num 0),
   ("metacognitive_score", Json.num (mkRat 1 10)),
   ("phenomenal_assessment_score", Json.num 0),
   ("patterns_used", Json.arr []),
   ("scaling_approach", Json.str "fallback"),
   ("approximation_method", Json.str "error_handling")]

/-- Match one of the given (lower-case) keywords case-insensitively at the
head of `r` (regex alternation, alternatives tried in list order). -/
def matchKeywordsCI (kws : List (List Char)) (r : List Char) : Option (List Char) :=
  match kws.find? (fun kw => listStartsWith kw (pyLower (r.take kw.length))) with
  | some kw => some (r.drop kw.length)
  | none => none

/-- The `["\']?\s*[:=]` part shared by the fallback extraction patterns:
optional quote, whitespace, a colon or equals sign.  The `\s*` following the
`[:=]` is left to the body matchers, because for the `([^,}\]]+)` body the
regex engine can backtrack into it. -/
def afterKeyHead (r1 : List Char) : Option (List Char) :=
  let r2 := match r1 with
    | '"' :: rest => rest
    | '\'' :: rest => rest
    | _ => r1
  let r3 := r2.dropWhile isPyWs
  match r3 with
  | c :: r4 => if c = ':' ∨ c = '=' then some r4 else none
  | [] => none

/-- Leftmost match of `(?:kw1|kw2)["\']?\s*[:=]\s*<body>` (IGNORECASE),
returning the body group: the model of `re.findall(...)[0]` for the fallback
extraction patterns. -/
def findFirstKV (kws : List (List Char)) (body : List Char → Option (List Char))
    (t : List Char) : Option (List Char) :=
  go (t.length + 1) t
where
  go : Nat → List Char → Option (List Char)
    | 0, _ => none
    | _ + 1, [] => none
    | fuel + 1, c :: cs =>
      match ((matchKeywordsCI kws (c :: cs)).bind afterKeyHead).bind body with
      | some res => some res
      | none => go fuel cs

/-- Body `\s*([0-9.]+)`: no whitespace character can serve as the group's
content, so the whitespace skip is maximal. -/
def bodyDigitsDots (r : List Char) : Option (List Char) :=
  let r := r.dropWhile isPyWs
  let ds := r.takeWhile (fun d => isDigitChar d ∨ d = '.')
  if ds.isEmpty then none else some ds

/-- Body `\s*["\']([^"\']+)["\']`. -/
def bodyQuoted (r : List Char) : Option (List Char) :=
  match r.dropWhile isPyWs with
  | q :: r1 =>
    if q = '"' ∨ q = '\'' then
      let content := r1.takeWhile (fun d => d ≠ '"' ∧ d ≠ '\'')
      let r2 := r1.drop content.length
      match content, r2 with
      | _ :: _, e :: _ => if e = '"' ∨ e = '\'' then some content else none
      | _, _ => none
    else none
  | [] => none

/-- Body `\s*([^,}\]]+)`: whitespace characters are themselves acceptable
group content, so when the maximal whitespace skip leaves nothing for the
group the engine backtracks by one character and the group matches the last
whitespace character. -/
def bodyBare (r : List Char) : Option (List Char) :=
  let ws := r.takeWhile isPyWs
  let rest := r.drop ws.length
  let content := rest.takeWhile (fun d => ¬ isDelim d)
  match content with
  | _ :: _ => some content
  | [] =>
    match ws.getLast? with
    | some w => some [w]
    | none => none

/-- Body `\s*\[([^\]]+)\]`. -/
def bodyBracket (r : List Char) : Option (List Char) :=
  match r.dropWhile isPyWs with
  | '[' :: r1 =>
    let content := r1.takeWhile (fun d => d ≠ ']')
    let r2 := r1.drop content.length
    match content, r2 with
    | _ :: _, ']' :: _ => some content
    | _, _ => none
  | _ => none

/-- `re.findall(r'(?:confidence|score)["\']?\s*[:=]\s*([0-9.]+)', t, re.IGNORECASE)[0]`. -/
def findConfidenceLike (t : List Char) : Option (List Char) :=
  findFirstKV ["confidence".toList, "score".toList] bodyDigitsDots t

/-- The two solution patterns (lines 792-795), tried in order. -/
def findSolutionLike (t : List Char) : Option (List Char) :=
  match findFirstKV ["solution".toList, "answer".toList] bodyQuoted t with
  | some s => some s
  | none => findFirstKV ["solution".toList, "answer".toList] bodyBare t

/-- The two reasoning patterns (lines 804-807), tried in order. -/
def findReasoningLike (t : List Char) : Option (List Char) :=
  match findFirstKV ["reasoning_steps".toList, "steps".toList] bodyBracket t with
  | some s => some s
  | none => findFirstKV ["reasoning".toList, "steps".toList] bodyQuoted t

/-- Python `float()` on a string drawn from `[0-9.]+`: accepted iff it has at
most one dot and at least one digit; `none` models the raised `ValueError`. -/
def pyFloatOfDigitsDots (ds : List Char) : Option Rat :=
  let dots := ds.countP (· = '.')
  let digits := ds.filter isDigitChar
  if 1 < dots ∨ digits.isEmpty then none
  else
    match listFindChar '.' ds with
    | none => some (mkRat (Int.ofNat (digitsToNat ds)) 1)
    | some i =>
      let ip := ds.take i
      let fp := ds.drop (i + 1)
      some (mkRat (Int.ofNat (digitsToNat (ip ++ fp))) (10 ^ fp.length))

/-- `min(1.0, max(0.0, v))`. -/
def pyClamp01 (v : Rat) : Rat :=
  let lo := if v < 0 then 0 else v
  if 1 < lo then 1 else lo

/-- Best-effort overwrite of `reasoning_steps` (lines 803-813). -/
def fallbackWithReasoning (fb : Record) (t : List Char) : Record :=
  match findReasoningLike t with
  | some s => dictInsert fb "reasoning_steps" (Json.arr [Json.str (pyStrip s).asString])
  | none => fb

/-- Best-effort overwrite of `solution` (lines 791-801) followed by the
`reasoning_steps` overwrite. -/
def fallbackWithSolution (fb : Record) (t : List Char) : Record :=
  fallbackWithReasoning
    (match findSolutionLike t with
     | some s => dictInsert fb "solution" (Json.str (pyStrip s).asString)
     | none => fb) t

/-- `LLMInterface._create_fallback_response` (lines 738-819): the default
record, then best-effort regex extraction.  The one operation in the guarded
block that can raise is `float()` on the confidence group; the surrounding
`except` then abandons the remaining extraction, keeping the defaults. -/
def createFallbackResponse (originalResponse : String) : Record :=
  if originalResponse.toList.isEmpty then fallbackBase originalResponse.toList
  else
    match findConfidenceLike originalResponse.toList with
    | some ds =>
      match pyFloatOfDigitsDots ds with
      | none => fallbackBase originalResponse.toList
      | some v =>
        fallbackWithSolution
          (dictInsert (fallbackBase originalResponse.toList) "confidence"
            (Json.num (pyClamp01 v)))
          originalResponse.toList
    | none => fallbackWithSolution (fallbackBase originalResponse.toList) originalResponse.toList

/-! ## `query_json` (lines 159-330)

The external generator `LLMInterface.query` is an oracle
`gen : Nat → Except String String` giving, for each invocation index, either
the returned text or the message of the raised exception.  `query_json` is
total over this oracle; `degraded` records whether the returned dict came
from `_create_fallback_response`. -/

structure QueryOutcome where
  record : Record
  degraded : Bool
  genCalls : Nat
  attempts : List Nat

/-- Try parsing a regenerated response (lines 256-276): direct parse, then
`_extract_json_object`, `_clean_json_response` + parse, `_fix_and_parse_json`,
each subject to the non-empty-dict test. -/
def regenParse (regen : List Char) : Option Record :=
  match acceptRecord (jsonLoadsL (pyStrip regen)) with
  | some rec => some rec
  | none =>
    match acceptRecord (extractJsonObject regen) with
    | some rec => some rec
    | none =>
      match acceptRecord (jsonLoadsL (cleanJsonResponse regen)) with
      | some rec => some rec
      | none => acceptRecord (some (fixAndParseJson regen))

/-- The attempt loop of `query_json` (`for attempt in range(max_retries + 1)`),
unrolled on the number of remaining retries.  On each attempt the generator is
called once; a generation failure or a full strategy failure moves to the next
attempt; on the final attempt one regeneration call is made and, failing
that, `_create_fallback_response` supplies the result. -/
def queryJsonGo (gen : Nat → Except String String) :
    Nat → Nat → Nat → List Nat → QueryOutcome
  | remaining, attempt, calls, atts =>
    let atts' := atts ++ [attempt]
    match gen calls with
    | .ok response =>
      match tryStrategies response.toList with
      | some rec => ⟨rec, false, calls + 1, atts'⟩
      | none =>
        match remaining with
        | r + 1 => queryJsonGo gen r (attempt + 1) (calls + 1) atts'
        | 0 =>
          match gen (calls + 1) with
          | .ok regen =>
            match regenParse regen.toList with
            | some rec => ⟨rec, false, calls + 2, atts'⟩
            | none => ⟨createFallbackResponse response, true, calls + 2, atts'⟩
          | .error _ => ⟨createFallbackResponse response, true, calls + 2, atts'⟩
    | .error e =>
      match remaining with
      | r + 1 => queryJsonGo gen r (attempt + 1) (calls + 1) atts'
      | 0 =>
        match gen (calls + 1) with
        | .ok regen =>
          match acceptRecord (jsonLoadsL (pyStrip regen.toList)) with
          | some rec => ⟨rec, false, calls + 2, atts'⟩
          | none =>
            ⟨createFallbackResponse ("Query failed: " ++ e), true, calls + 2, atts'⟩
        | .error _ =>
          ⟨createFallbackResponse ("Query failed: " ++ e), true, calls + 2, atts'⟩

/-- `LLMInterface.query_json` over the generation oracle, with
`max_retries = maxRetries` (config `json_parsing_retries`).  The code after
the loop (lines 314-330) is unreachable: every final-attempt branch returns. -/
def queryJson (gen : Nat → Except String String) (maxRetries : Nat) : QueryOutcome :=
  queryJsonGo gen maxRetries 0 0 []

/-! ## The reasoning state machine (`ReasoningStateMachine`, lines 1036-1119) -/

/-- `ReasoningState` (lines 53-65). -/
inductive ReasoningState where
  | idle
  | parsingInput
  | representationMapping
  | fastProcessing
  | slowProcessing
  | metacognitiveEvaluation
  | causalAnalysis
  | generatingResponse
  | selfVerification
  | complete
  | error
deriving DecidableEq

/-- The values `transition_to_next_state` reads from its `context` dict,
already passed through `_safe_float` / `_safe_int` / `bool(...)`:
`confidence` (default 0.7, 0.0 on an unconvertible value), `complexity_level`
(default 3), the truthiness of the three solution fields, and the flags. -/
structure StageContext where
  confidence : Rat
  complexityLevel : Int
  fastSolution : Bool
  slowSolution : Bool
  finalSolution : Bool
  processingComplete : Bool
  requiresCausalAnalysis : Bool
  errorOccurred : Bool
  parsingError : Bool

/-- `ReasoningStateMachine.transition_to_next_state` (lines 1045-1119):
returns the new current state and the new state history.  The
`GENERATING_RESPONSE` auto-transition (lines 1049-1053) runs first; then loop
prevention (lines 1056-1062, requiring at least two logged states); then the
hard-coded table; the error-flag override (lines 1112-1113) applies only to
the table's result. -/
def transitionToNextState (current : ReasoningState) (history : List ReasoningState)
    (context : StageContext) : ReasoningState × List ReasoningState :=
  if current = .generatingResponse then
    (.selfVerification, history ++ [current])
  else if 2 ≤ history.length ∧ history.getLast? = some current then
    (.complete, history ++ [current])
  else
    let hasSolution := context.fastSolution || context.slowSolution || context.finalSolution
    let next : ReasoningState :=
      match current with
      | .idle => .parsingInput
      | .parsingInput => .representationMapping
      | .representationMapping => .fastProcessing
      | .fastProcessing =>
        if hasSolution ∧ mkRat 6 10 < context.confidence then .generatingResponse
        else .slowProcessing
      | .slowProcessing =>
        if context.requiresCausalAnalysis then .causalAnalysis
        else if 4 ≤ context.complexityLevel then .metacognitiveEvaluation
        else .generatingResponse
      | .causalAnalysis =>
        if 4 ≤ context.complexityLevel then .metacognitiveEvaluation
        else .generatingResponse
      | .metacognitiveEvaluation => .generatingResponse
      | .selfVerification => .complete
      | _ => .complete
    let next := if context.errorOccurred || context.parsingError then .error else next
    (next, history ++ [current])

/-- The spec's claimed order of the truncation repair, modelled from the
spec's words (§4.2 step (e) / claim C6): with more opening than closing
delimiters, "first drop any trailing incomplete key-value fragment (a line
containing a key-colon but no terminating comma/brace), then append the
missing closing delimiters", after which the parse is re-attempted.  Kept
separately from `fixAndParseJson` (which is translated from the code) so the
two orders can be compared. -/
def specTruncationRepair (cleaned : List Char) : List Char :=
  let c := joinNl (dropIncompleteTail (splitOnNl cleaned))
  let ob := listCountChar '{' c
  let cb := listCountChar '}' c
  if cb < ob then c ++ List.replicate (ob - cb) '}' else c

/-! ## Helper lemmas -/

theorem dictGet_map_update (kvs : Record) (k k' : String) (v : Json) (h : k' ≠ k) :
    dictGet (kvs.map (fun p => if p.1 = k' then (k', v) else p)) k = dictGet kvs k := by
  induction kvs with
  | nil => rfl
  | cons p ps ih =>
    by_cases hp : p.1 = k'
    · have hpk : ¬ p.1 = k := fun hh => h (hp ▸ hh)
      simp only [List.map_cons, dictGet, hp, if_true, if_neg h, if_neg hpk]
      exact ih
    · simp only [List.map_cons, dictGet, hp, if_false]
      by_cases hpk : p.1 = k
      · simp [hpk]
      · simp only [if_neg hpk]
        exact ih

theorem dictGet_append_ne (kvs : Record) (k k' : String) (v : Json) (h : k' ≠ k) :
    dictGet (kvs ++ [(k', v)]) k = dictGet kvs k := by
  induction kvs with
  | nil => simp [dictGet, h]
  | cons p ps ih =>
    by_cases hpk : p.1 = k
    · simp [dictGet, hpk]
    · simp only [List.cons_append, dictGet, if_neg hpk]
      exact ih

theorem dictGet_dictInsert_ne (kvs : Record) (k k' : String) (v : Json)
    (h : k' ≠ k) : dictGet (dictInsert kvs k' v) k = dictGet kvs k := by
  unfold dictInsert
  split
  · exact dictGet_map_update kvs k k' v h
  · exact dictGet_append_ne kvs k k' v h

theorem fallbackWithReasoning_get_ne (fb : Record) (t : List Char) (k : String)
    (h3 : k ≠ "reasoning_steps") :
    dictGet (fallbackWithReasoning fb t) k = dictGet fb k := by
  unfold fallbackWithReasoning
  split
  · exact dictGet_dictInsert_ne _ _ _ _ (Ne.symm h3)
  · rfl

theorem fallbackWithSolution_get_ne (fb : Record) (t : List Char) (k : String)
    (h2 : k ≠ "solution") (h3 : k ≠ "reasoning_steps") :
    dictGet (fallbackWithSolution fb t) k = dictGet fb k := by
  unfold fallbackWithSolution
  rw [fallbackWithReasoning_get_ne _ _ _ h3]
  split
  · exact dictGet_dictInsert_ne _ _ _ _ (Ne.symm h2)
  · rfl

/-- Keys other than `confidence`, `solution`, `reasoning_steps` are never
touched by the best-effort extraction of `_create_fallback_response`. -/
theorem createFallbackResponse_get_untouched (raw : String) (k : String)
    (h1 : k ≠ "confidence") (h2 : k ≠ "solution") (h3 : k ≠ "reasoning_steps") :
    dictGet (createFallbackResponse raw) k = dictGet (fallbackBase raw.toList) k := by
  unfold createFallbackResponse
  split
  · rfl
  · split
    · split
      · rfl
      · rw [fallbackWithSolution_get_ne _ _ _ h2 h3,
          dictGet_dictInsert_ne _ _ _ _ (Ne.symm h1)]
    · rw [fallbackWithSolution_get_ne _ _ _ h2 h3]

/-- The fallback record always carries the explicit error marker. -/
theorem createFallbackResponse_error_field (raw : String) :
    dictGet (createFallbackResponse raw) "error" = some (Json.str "json_parsing_failed") := by
  rw [createFallbackResponse_get_untouched raw "error" (by decide) (by decide) (by decide)]
  rfl

theorem acceptRecord_ne_nil {o : Option Json} {rec : Record}
    (h : acceptRecord o = some rec) : rec ≠ [] := by
  unfold acceptRecord at h
  match o, h with
  | some (Json.obj kvs), h =>
    by_cases he : kvs.isEmpty
    · simp [he] at h
    · simp [he] at h
      subst h
      simpa [List.isEmpty_iff] using he

theorem tryStrategies_ne_nil {r : List Char} {rec : Record}
    (h : tryStrategies r = some rec) : rec ≠ [] := by
  unfold tryStrategies at h
  generalize strategyResults r = l at h
  induction l generalizing rec with
  | nil => simp at h
  | cons o os ih =>
    rw [List.foldl_cons] at h
    match ho : acceptRecord o with
    | some rec' =>
      have : List.foldl (fun acc res => acc <|> acceptRecord res) (some rec') os = some rec := by
        simpa [ho] using h
      have hconst : ∀ os' (a : Record),
          List.foldl (fun acc res => acc <|> acceptRecord res) (some a) os' = some a := by
        intro os'
        induction os' with
        | nil => intro a; rfl
        | cons p ps ihp => intro a; simpa using ihp a
      rw [hconst os rec'] at this
      cases this
      exact acceptRecord_ne_nil ho
    | none =>
      apply ih
      simpa [ho] using h

theorem regenParse_ne_nil {r : List Char} {rec : Record}
    (h : regenParse r = some rec) : rec ≠ [] := by
  unfold regenParse at h
  cases h1 : acceptRecord (jsonLoadsL (pyStrip r)) with
  | some a => simp only [h1] at h; cases h; exact acceptRecord_ne_nil h1
  | none =>
    simp only [h1] at h
    cases h2 : acceptRecord (extractJsonObject r) with
    | some a => simp only [h2] at h; cases h; exact acceptRecord_ne_nil h2
    | none =>
      simp only [h2] at h
      cases h3 : acceptRecord (jsonLoadsL (cleanJsonResponse r)) with
      | some a => simp only [h3] at h; cases h; exact acceptRecord_ne_nil h3
      | none =>
        simp only [h3] at h
        exact acceptRecord_ne_nil h

/-- The one invariant of the attempt loop, proved by induction on the number
of remaining retries: a degraded outcome is a `_create_fallback_response`
record (hence carries the error marker), a non-degraded outcome is a
non-empty dict, the generator is called at most `remaining + 2` more times,
and the attempt indices recorded extend `atts` by the consecutive run
`attempt, attempt+1, ...` of length between 1 and `remaining + 1`. -/
theorem queryJsonGo_inv (gen : Nat → Except String String) :
    ∀ remaining attempt calls atts,
      ((queryJsonGo gen remaining attempt calls atts).degraded = true →
        dictGet (queryJsonGo gen remaining attempt calls atts).record "error" =
          some (Json.str "json_parsing_failed")) ∧
      ((queryJsonGo gen remaining attempt calls atts).degraded = false →
        (queryJsonGo gen remaining attempt calls atts).record ≠ []) ∧
      (queryJsonGo gen remaining attempt calls atts).genCalls ≤ calls + remaining + 2 ∧
      ∃ k, (queryJsonGo gen remaining attempt calls atts).attempts =
          atts ++ List.range' attempt k ∧ 1 ≤ k ∧ k ≤ remaining + 1 := by
  intro remaining
  induction remaining with
  | zero =>
    intro attempt calls atts
    cases hg : gen calls with
    | ok response =>
      cases hs : tryStrategies response.toList with
      | some rec =>
        simp only [queryJsonGo, hg, hs]
        exact ⟨by simp, fun _ => tryStrategies_ne_nil hs, by omega,
          1, by simp [List.range'_one], by omega, by omega⟩
      | none =>
        cases hg2 : gen (calls + 1) with
        | ok regen =>
          cases hr : regenParse regen.toList with
          | some rec =>
            simp only [queryJsonGo, hg, hs, hg2, hr]
            exact ⟨by simp, fun _ => regenParse_ne_nil hr, by omega,
              1, by simp [List.range'_one], by omega, by omega⟩
          | none =>
            simp only [queryJsonGo, hg, hs, hg2, hr]
            exact ⟨fun _ => createFallbackResponse_error_field _, by simp, by omega,
              1, by simp [List.range'_one], by omega, by omega⟩
        | error e =>
          simp only [queryJsonGo, hg, hs, hg2]
          exact ⟨fun _ => createFallbackResponse_error_field _, by simp, by omega,
            1, by simp [List.range'_one], by omega, by omega⟩
    | error e =>
      cases hg2 : gen (calls + 1) with
      | ok regen =>
        cases hr : acceptRecord (jsonLoadsL (pyStrip regen.toList)) with
        | some rec =>
          simp only [queryJsonGo, hg, hg2, hr]
          exact ⟨by simp, fun _ => acceptRecord_ne_nil hr, by omega,
            1, by simp [List.range'_one], by omega, by omega⟩
        | none =>
          simp only [queryJsonGo, hg, hg2, hr]
          exact ⟨fun _ => createFallbackResponse_error_field _, by simp, by omega,
            1, by simp [List.range'_one], by omega, by omega⟩
      | error e2 =>
        simp only [queryJsonGo, hg, hg2]
        exact ⟨fun _ => createFallbackResponse_error_field _, by simp, by omega,
          1, by simp [List.range'_one], by omega, by omega⟩
  | succ r ih =>
    intro attempt calls atts
    cases hg : gen calls with
    | ok response =>
      cases hs : tryStrategies response.toList with
      | some rec =>
        simp only [queryJsonGo, hg, hs]
        exact ⟨by simp, fun _ => tryStrategies_ne_nil hs, by omega,
          1, by simp [List.range'_one], by omega, by omega⟩
      | none =>
        obtain ⟨h1, h2, h3, k, hk, hk1, hk2⟩ := ih (attempt + 1) (calls + 1) (atts ++ [attempt])
        rw [queryJsonGo]
        simp only [hg, hs]
        refine ⟨h1, h2, by omega, k + 1, ?_, by omega, by omega⟩
        rw [hk, List.append_assoc, List.singleton_append, List.range'_succ]
    | error e =>
      obtain ⟨h1, h2, h3, k, hk, hk1, hk2⟩ := ih (attempt + 1) (calls + 1) (atts ++ [attempt])
      rw [queryJsonGo]
      simp only [hg]
      refine ⟨h1, h2, by omega, k + 1, ?_, by omega, by omega⟩
      rw [hk, List.append_assoc, List.singleton_append, List.range'_succ]

/-- A context whose only raised flag is `error_occurred`. -/
def errorContext : StageContext :=
  ⟨mkRat 7 10, 3, false, false, false, false, false, true, false⟩

/-- A context with no flags raised. -/
def defaultContext : StageContext :=
  ⟨mkRat 7 10, 3, false, false, false, false, false, false, false⟩

/-- A context holding a candidate solution with confidence 0.9. -/
def confidentContext : StageContext :=
  ⟨mkRat 9 10, 3, true, false, false, false, false, false, false⟩

/-! ## Claims -/

/-- C1: for every behaviour of the external generator, `query_json` returns a
Record (the model is a total function over the generation oracle, mirroring
that every path of the Python code returns a dict and no exception escapes),
and whenever all recovery is exhausted (the result is the
`_create_fallback_response` record) the Record carries the explicit `error`
field marking the degradation. -/
theorem query_json_total_with_error_marker
    (gen : Nat → Except String String) (maxRetries : Nat)
    (h : (queryJson gen maxRetries).degraded = true) :
    dictGet (queryJson gen maxRetries).record "error" =
      some (Json.str "json_parsing_failed") :=
  (queryJsonGo_inv gen maxRetries 0 0 []).1 h

set_option maxRecDepth 40000 in
/-- Witness for C1: a generator whose every call fails drives `query_json`
into the degraded outcome, and the returned Record has the `error` field. -/
theorem query_json_total_with_error_marker_witness :
    (queryJson (fun _ => Except.error "boom") 0).degraded = true ∧
    dictGet (queryJson (fun _ => Except.error "boom") 0).record "error" =
      some (Json.str "json_parsing_failed") :=
  ⟨rfl, query_json_total_with_error_marker (fun _ => Except.error "boom") 0 rfl⟩

/-- C2: across one `query_json` call the attempt indices are strictly
increasing starting at 0 with no index used twice, and the generator is
invoked at most `max_retries + 2` times (the attempt loop plus the one
regeneration call). -/
theorem query_json_retry_budget (gen : Nat → Except String String) (maxRetries : Nat) :
    (queryJson gen maxRetries).genCalls ≤ maxRetries + 2 ∧
    (queryJson gen maxRetries).attempts.head? = some 0 ∧
    (queryJson gen maxRetries).attempts.Pairwise (· < ·) ∧
    (queryJson gen maxRetries).attempts.Nodup := by
  obtain ⟨-, -, h3, k, hk, hk1, -⟩ := queryJsonGo_inv gen maxRetries 0 0 []
  have hk' : (queryJson gen maxRetries).attempts = List.range' 0 k := by
    simpa [queryJson] using hk
  have hpw : (queryJson gen maxRetries).attempts.Pairwise (· < ·) := by
    rw [hk']; exact List.pairwise_lt_range' 0 k 1 (by omega)
  refine ⟨by simpa [queryJson] using h3, ?_, hpw, ?_⟩
  · rw [hk']
    obtain ⟨k', rfl⟩ : ∃ k', k = k' + 1 := ⟨k - 1, by omega⟩
    rw [List.range'_succ]
    rfl
  · exact hpw.imp fun h => Nat.ne_of_lt h

set_option maxRecDepth 40000 in
/-- C3: on the spec's fixture — a record whose string value contains a `}` —
followed by trailing prose, the string-aware scan extracts exactly the
record's span (the brace inside the quoted value is not a delimiter and the
prose is excluded), and `_extract_json_object` parses it to the record. -/
theorem extract_json_object_string_aware :
    extractJsonSpan ("\x7b\"a\": \"value with \x7d brace\"\x7d trailing prose".toList) =
      some ("\x7b\"a\": \"value with \x7d brace\"\x7d".toList) ∧
    extractJsonObject ("\x7b\"a\": \"value with \x7d brace\"\x7d trailing prose".toList) =
      some (Json.obj [("a", Json.str "value with \x7d brace")]) :=
  ⟨rfl, rfl⟩

/-- Counterexample to C4 as stated: with `error_occurred=true` in the
context, the transition from `GENERATING_RESPONSE` goes to
`SELF_VERIFICATION`, not to the terminal `Error` state — the error override
does not apply from every state. -/
theorem error_override_counterexample :
    errorContext.errorOccurred = true ∧
    (transitionToNextState .generatingResponse [] errorContext).1 = .selfVerification ∧
    ReasoningState.selfVerification ≠ ReasoningState.error := by
  refine ⟨rfl, by decide, by decide⟩

/-- C4 (amended): when the current state is not `GENERATING_RESPONSE` and the
loop-prevention rule does not fire, a recorded unrecoverable stage error
(`error_occurred` or `parsing_error`) forces the next transition to the
terminal `Error` state, overriding the transition table. -/
theorem error_override_to_error_state
    (s : ReasoningState) (hist : List ReasoningState) (ctx : StageContext)
    (h1 : s ≠ .generatingResponse)
    (h2 : ¬ (2 ≤ hist.length ∧ hist.getLast? = some s))
    (h3 : ctx.errorOccurred = true ∨ ctx.parsingError = true) :
    (transitionToNextState s hist ctx).1 = .error := by
  unfold transitionToNextState
  rw [if_neg h1, if_neg h2]
  rcases h3 with h | h <;> simp [h]

/-- Witness for C4 (amended) at `FAST_PROCESSING` with `error_occurred`. -/
theorem error_override_to_error_state_witness :
    (ReasoningState.fastProcessing ≠ ReasoningState.generatingResponse) ∧
    ¬ (2 ≤ ([] : List ReasoningState).length ∧
        ([] : List ReasoningState).getLast? = some .fastProcessing) ∧
    errorContext.errorOccurred = true ∧
    (transitionToNextState .fastProcessing [] errorContext).1 = .error :=
  ⟨by decide, by decide, rfl,
    error_override_to_error_state .fastProcessing [] errorContext
      (by decide) (by decide) (Or.inl rfl)⟩

/-- Counterexample to C5 as stated: from `GENERATING_RESPONSE` with the
previous logged state equal to the current one, the machine still moves to
`SELF_VERIFICATION` — the loop-prevention rule does not take precedence over
the `GENERATING_RESPONSE` auto-transition. -/
theorem loop_prevention_counterexample :
    [ReasoningState.idle, .generatingResponse].getLast? =
      some ReasoningState.generatingResponse ∧
    2 ≤ [ReasoningState.idle, .generatingResponse].length ∧
    (transitionToNextState .generatingResponse [.idle, .generatingResponse]
      defaultContext).1 = .selfVerification ∧
    ReasoningState.selfVerification ≠ ReasoningState.complete := by
  refine ⟨by decide, by decide, by decide, by decide⟩

/-- C5 (amended): when at least two states have been logged, the current
state is not `GENERATING_RESPONSE`, and the previously logged state equals
the current state, the machine transitions to `Complete`; this holds for
every context, so the rule takes precedence over the error override and the
transition table, and a state such as `FAST_PROCESSing` revisited
consecutively reaches `Complete` in one further transition. -/
theorem loop_prevention_forces_complete
    (s : ReasoningState) (hist : List ReasoningState) (ctx : StageContext)
    (h1 : s ≠ .generatingResponse) (h2 : 2 ≤ hist.length)
    (h3 : hist.getLast? = some s) :
    (transitionToNextState s hist ctx).1 = .complete := by
  unfold transitionToNextState
  rw [if_neg h1, if_pos ⟨h2, h3⟩]

/-- Witness for C5 (amended): a `FAST_PROCESSING` revisit, with the error
flag raised to exhibit precedence over the error override. -/
theorem loop_prevention_forces_complete_witness :
    (ReasoningState.fastProcessing ≠ ReasoningState.generatingResponse) ∧
    2 ≤ [ReasoningState.representationMapping, .fastProcessing].length ∧
    [ReasoningState.representationMapping, .fastProcessing].getLast? =
      some ReasoningState.fastProcessing ∧
    (transitionToNextState .fastProcessing
      [.representationMapping, .fastProcessing] errorContext).1 = .complete :=
  ⟨by decide, by decide, by decide,
    loop_prevention_forces_complete .fastProcessing
      [.representationMapping, .fastProcessing] errorContext
      (by decide) (by decide) (by decide)⟩

/-- Counterexample to C9 as stated: a context with no candidate solution but
with `error_occurred=true` sends `FAST_PROCESSING` to `Error`, not to
`SLOW_PROCESSING`, although the claim requires `SlowPass` in "every other
case". -/
theorem fast_pass_counterexample :
    ¬ (((errorContext.fastSolution || errorContext.slowSolution ||
          errorContext.finalSolution) = true) ∧
        mkRat 6 10 < errorContext.confidence) ∧
    (transitionToNextState .fastProcessing [] errorContext).1 = .error ∧
    ReasoningState.error ≠ ReasoningState.slowProcessing := by
  refine ⟨by decide, by decide, by decide⟩

/-- C9 (amended): provided no error flag is set and the loop-prevention rule
does not fire, the transition from `FAST_PROCESSING` goes to
`GENERATING_RESPONSE` exactly when the context holds a candidate solution
(one of the three solution fields is truthy) and the confidence exceeds the
0.6 threshold, and to `SLOW_PROCESSING` in every other case. -/
theorem fast_pass_transition
    (hist : List ReasoningState) (ctx : StageContext)
    (h1 : ctx.errorOccurred = false) (h2 : ctx.parsingError = false)
    (h3 : ¬ (2 ≤ hist.length ∧ hist.getLast? = some .fastProcessing)) :
    (transitionToNextState .fastProcessing hist ctx).1 =
      if ((ctx.fastSolution || ctx.slowSolution || ctx.finalSolution) = true) ∧
          mkRat 6 10 < ctx.confidence
      then .generatingResponse else .slowProcessing := by
  unfold transitionToNextState
  rw [if_neg (by decide : ¬ (ReasoningState.fastProcessing = .generatingResponse)),
    if_neg h3]
  simp [h1, h2]

/-- Witness for C9 (amended): a confident context with a fast solution skips
to `GENERATING_RESPONSE`; the default context falls to `SLOW_PROCESSING`. -/
theorem fast_pass_transition_witness :
    confidentContext.errorOccurred = false ∧ confidentContext.parsingError = false ∧
    ¬ (2 ≤ ([] : List ReasoningState).length ∧
        ([] : List ReasoningState).getLast? = some .fastProcessing) ∧
    (transitionToNextState .fastProcessing [] confidentContext).1 =
      .generatingResponse ∧
    (transitionToNextState .fastProcessing [] defaultContext).1 =
      .slowProcessing := by
  refine ⟨rfl, rfl, by decide, ?_, ?_⟩
  · rw [fast_pass_transition [] confidentContext rfl rfl (by decide)]
    decide
  · rw [fast_pass_transition [] defaultContext rfl rfl (by decide)]
    decide

/-- The truncated fixture for C6: one more `{` than `}`, with a trailing
incomplete key-value fragment `"b": 2`. -/
def truncatedFixture : List Char := "\x7b\"a\": 1,\n\"b\": 2".toList

set_option maxRecDepth 40000 in
/-- Counterexample to C6 as stated: on the truncated fixture (opening braces
exceed closing ones) the code's repair keeps the trailing incomplete
fragment and parses to a record still containing `"b"`, while the claimed
order — drop the fragment first, then append the missing delimiters — yields
`{"a": 1,}`, a text without `"b"` that does not even parse.  So the code
appends before dropping, not the other way round. -/
theorem truncation_repair_counterexample :
    fixAndParseJson truncatedFixture =
      Json.obj [("a", Json.num (mkRat 1 1)), ("b", Json.num (mkRat 2 1))] ∧
    specTruncationRepair truncatedFixture = "\x7b\"a\": 1,\x7d".toList ∧
    jsonLoadsL (specTruncationRepair truncatedFixture) = none :=
  ⟨rfl, rfl, rfl⟩

/-- C6 (amended): in `_fix_and_parse_json` the missing closing delimiters
are appended first and the parse re-attempted; only when that parse fails is
the trailing incomplete key-value fragment dropped (and the object closed)
before the second re-parse, after which `_aggressive_json_fix` is the last
resort. -/
theorem truncation_repair_append_first (r : List Char) :
    (∀ j, jsonLoadsL (fixAndParseJsonCleaned r) = some j → fixAndParseJson r = j) ∧
    (jsonLoadsL (fixAndParseJsonCleaned r) = none →
      fixAndParseJson r =
        match jsonLoadsL (fixAndParseJsonDropped r) with
        | some j => j
        | none => aggressiveJsonFix (fixAndParseJsonDropped r)) := by
  constructor
  · intro j h
    unfold fixAndParseJson
    rw [h]
  · intro h
    unfold fixAndParseJson
    rw [h]

set_option maxRecDepth 40000 in
/-- Witness for C6 (amended): on the truncated fixture the append-first parse
already succeeds, and the returned record is its result. -/
theorem truncation_repair_append_first_witness :
    jsonLoadsL (fixAndParseJsonCleaned truncatedFixture) =
      some (Json.obj [("a", Json.num (mkRat 1 1)), ("b", Json.num (mkRat 2 1))]) ∧
    fixAndParseJson truncatedFixture =
      Json.obj [("a", Json.num (mkRat 1 1)), ("b", Json.num (mkRat 2 1))] :=
  ⟨rfl, (truncation_repair_append_first truncatedFixture).1 _ rfl⟩

set_option maxRecDepth 40000 in
/-- C7: the repair transform `_fix_json_string` is not idempotent: on `,,}`
one application removes only one of the chained trailing commas (the
`re.sub` scan resumes after each replacement), so a second application
changes the text again.  The code thus violates the spec's idempotence
property `repair(repair(t)) == repair(t)`. -/
theorem repair_not_idempotent :
    fixJsonString (",,\x7d".toList) = ",\x7d".toList ∧
    fixJsonString (",\x7d".toList) = "\x7d".toList ∧
    fixJsonString (fixJsonString (",,\x7d".toList)) ≠ fixJsonString (",,\x7d".toList) :=
  ⟨rfl, rfl, by decide⟩

/-- Counterexample to C8 as stated: on the empty raw text the defaults are
not all `0.0` — `reasoning_quality_score` (and `confidence`,
`metacognitive_score`) default to `0.1` — and the `original_response`
default is the string `"No response"`, not the first 500 characters of the
raw text (which would be the empty string). -/
theorem fallback_defaults_counterexample :
    dictGet (createFallbackResponse "") "reasoning_quality_score" =
      some (Json.num (mkRat 1 10)) ∧
    dictGet (createFallbackResponse "") "confidence" = some (Json.num (mkRat 1 10)) ∧
    dictGet (createFallbackResponse "") "original_response" =
      some (Json.str "No response") ∧
    mkRat 1 10 ≠ 0 :=
  ⟨rfl, rfl, rfl, by decide⟩

/-- C8 (amended): for every raw input text the fallback record builder (a
total function) returns a Record whose defaults are: every boolean
compliance field `false`, the compliance / verification / causal-fidelity /
phenomenal scores `0.0` (but `confidence`, `reasoning_quality_score` and
`metacognitive_score` default to `0.1`), the explicit error marker, and the
first 500 characters of the raw text when it is non-empty (`"No response"`
when empty); the confidence default is overwritten only if a confidence-like
number is found in the raw text, and the solution default only if a
solution-like string is found. -/
theorem fallback_record_fields (raw : String) :
    dictGet (createFallbackResponse raw) "error" = some (Json.str "json_parsing_failed") ∧
    dictGet (createFallbackResponse raw) "r1_compliance" = some (Json.bool false) ∧
    dictGet (createFallbackResponse raw) "r2_compliance" = some (Json.bool false) ∧
    dictGet (createFallbackResponse raw) "c1_compliance" = some (Json.bool false) ∧
    dictGet (createFallbackResponse raw) "c2_compliance" = some (Json.bool false) ∧
    dictGet (createFallbackResponse raw) "c3_compliance" = some (Json.bool false) ∧
    dictGet (createFallbackResponse raw) "overall_t1_compliance" = some (Json.bool false) ∧
    dictGet (createFallbackResponse raw) "u1_compliance" = some (Json.bool false) ∧
    dictGet (createFallbackResponse raw) "u2_compliance" = some (Json.bool false) ∧
    dictGet (createFallbackResponse raw) "c4_compliance" = some (Json.bool false) ∧
    dictGet (createFallbackResponse raw) "c5_compliance" = some (Json.bool false) ∧
    dictGet (createFallbackResponse raw) "c6_compliance" = some (Json.bool false) ∧
    dictGet (createFallbackResponse raw) "overall_tu_compliance" = some (Json.bool false) ∧
    dictGet (createFallbackResponse raw) "e1_compliance" = some (Json.bool false) ∧
    dictGet (createFallbackResponse raw) "e2_compliance" = some (Json.bool false) ∧
    dictGet (createFallbackResponse raw) "e3_compliance" = some (Json.bool false) ∧
    dictGet (createFallbackResponse raw) "overall_tustar_compliance" = some (Json.bool false) ∧
    dictGet (createFallbackResponse raw) "verification_passed" = some (Json.bool false) ∧
    dictGet (createFallbackResponse raw) "compliance_score" = some (Json.num 0) ∧
    dictGet (createFallbackResponse raw) "verification_score" = some (Json.num 0) ∧
    dictGet (createFallbackResponse raw) "causal_fidelity_score" = some (Json.num 0) ∧
    dictGet (createFallbackResponse raw) "phenomenal_assessment_score" = some (Json.num 0) ∧
    dictGet (createFallbackResponse raw) "reasoning_quality_score" = some (Json.num (mkRat 1 10)) ∧
    dictGet (createFallbackResponse raw) "metacognitive_score" = some (Json.num (mkRat 1 10)) ∧
    dictGet (createFallbackResponse raw) "original_response" =
      some (Json.str (if raw.toList.isEmpty then "No response"
                      else (raw.toList.take 500).asString)) ∧
    (findConfidenceLike raw.toList = none →
      dictGet (createFallbackResponse raw) "confidence" = some (Json.num (mkRat 1 10))) ∧
    (findSolutionLike raw.toList = none →
      dictGet (createFallbackResponse raw) "solution" =
        some (Json.str "JSON parsing failed - using fallback response")) := by
  have hget : ∀ k, k ≠ "confidence" → k ≠ "solution" → k ≠ "reasoning_steps" →
      dictGet (createFallbackResponse raw) k = dictGet (fallbackBase raw.toList) k :=
    fun k h1 h2 h3 => createFallbackResponse_get_untouched raw k h1 h2 h3
  refine ⟨?_, ?_, ?_, ?_, ?_, ?_, ?_, ?_, ?_, ?_, ?_, ?_, ?_, ?_, ?_, ?_, ?_, ?_,
    ?_, ?_, ?_, ?_, ?_, ?_, ?_, ?_, ?_⟩
  case _ => rw [hget _ (by decide) (by decide) (by decide)]; rfl
  case _ => rw [hget _ (by decide) (by decide) (by decide)]; rfl
  case _ => rw [hget _ (by decide) (by decide) (by decide)]; rfl
  case _ => rw [hget _ (by decide) (by decide) (by decide)]; rfl
  case _ => rw [hget _ (by decide) (by decide) (by decide)]; rfl
  case _ => rw [hget _ (by decide) (by decide) (by decide)]; rfl
  case _ => rw [hget _ (by decide) (by decide) (by decide)]; rfl
  case _ => rw [hget _ (by decide) (by decide) (by decide)]; rfl
  case _ => rw [hget _ (by decide) (by decide) (by decide)]; rfl
  case _ => rw [hget _ (by decide) (by decide) (by decide)]; rfl
  case _ => rw [hget _ (by decide) (by decide) (by decide)]; rfl
  case _ => rw [hget _ (by decide) (by decide) (by decide)]; rfl
  case _ => rw [hget _ (by decide) (by decide) (by decide)]; rfl
  case _ => rw [hget _ (by decide) (by decide) (by decide)]; rfl
  case _ => rw [hget _ (by decide) (by decide) (by decide)]; rfl
  case _ => rw [hget _ (by decide) (by decide) (by decide)]; rfl
  case _ => rw [hget _ (by decide) (by decide) (by decide)]; rfl
  case _ => rw [hget _ (by decide) (by decide) (by decide)]; rfl
  case _ => rw [hget _ (by decide) (by decide) (by decide)]; rfl
  case _ => rw [hget _ (by decide) (by decide) (by decide)]; rfl
  case _ => rw [hget _ (by decide) (by decide) (by decide)]; rfl
  case _ => rw [hget _ (by decide) (by decide) (by decide)]; rfl
  case _ => rw [hget _ (by decide) (by decide) (by decide)]; rfl
  case _ => rw [hget _ (by decide) (by decide) (by decide)]; rfl
  case _ => rw [hget _ (by decide) (by decide) (by decide)]; rfl
  case _ =>
    intro h
    unfold createFallbackResponse
    split
    · rfl
    · simp only [h]
      rw [fallbackWithSolution_get_ne _ _ _ (by decide) (by decide)]
      rfl
  case _ =>
    intro h
    unfold createFallbackResponse
    split
    · rfl
    · cases hc : findConfidenceLike raw.toList with
      | none =>
        simp only [hc]
        unfold fallbackWithSolution
        simp only [h]
        rw [fallbackWithReasoning_get_ne _ _ _ (by decide)]
        rfl
      | some ds =>
        simp only [hc]
        cases hf : pyFloatOfDigitsDots ds with
        | none => rfl
        | some v =>
          simp only [hf]
          unfold fallbackWithSolution
          simp only [h]
          rw [fallbackWithReasoning_get_ne _ _ _ (by decide),
            dictGet_dictInsert_ne _ _ _ _ (by decide)]
          rfl

/-- Witness for C8 (amended): on the empty raw text neither a confidence-like
number nor a solution-like string is found, and the two defaults survive. -/
theorem fallback_record_fields_witness :
    findConfidenceLike "".toList = none ∧
    findSolutionLike "".toList = none ∧
    dictGet (createFallbackResponse "") "confidence" = some (Json.num (mkRat 1 10)) ∧
    dictGet (createFallbackResponse "") "solution" =
      some (Json.str "JSON parsing failed - using fallback response") := by
  obtain ⟨-, -, -, -, -, -, -, -, -, -, -, -, -, -, -, -, -, -, -, -, -, -, -, -, -,
    hconf, hsol⟩ := fallback_record_fields ""
  exact ⟨rfl, rfl, hconf rfl, hsol rfl⟩

set_option maxRecDepth 40000 in
/-- C10: a parsing strategy's result is accepted only when it is a non-empty
key-value mapping, so every Record produced by a successful strategy (and
every non-degraded `query_json` result) is non-empty; a strategy whose parse
yields a non-object (the list fixture, where the direct parse succeeds with a
list and the next strategy in the fixed order supplies the record) or an
empty object (the `{}` fixture, where every strategy's outcome is rejected)
is treated as a failure. -/
theorem strategies_return_nonempty_records :
    (∀ (r : List Char) (rec : Record), tryStrategies r = some rec → rec ≠ []) ∧
    (∀ (gen : Nat → Except String String) (maxRetries : Nat),
      (queryJson gen maxRetries).degraded = false →
      (queryJson gen maxRetries).record ≠ []) ∧
    tryStrategies ("[1, \x7b\"a\": 1\x7d]".toList) = some [("a", Json.num (mkRat 1 1))] ∧
    tryStrategies ("\x7b\x7d".toList) = none :=
  ⟨fun _ _ h => tryStrategies_ne_nil h,
   fun gen maxRetries h => (queryJsonGo_inv gen maxRetries 0 0 []).2.1 h,
   rfl, rfl⟩

set_option maxRecDepth 40000 in
/-- Witness for C10: the list fixture's record is non-empty, and a generator
returning a well-formed object gives a non-degraded, non-empty result. -/
theorem strategies_return_nonempty_records_witness :
    tryStrategies ("[1, \x7b\"a\": 1\x7d]".toList) = some [("a", Json.num (mkRat 1 1))] ∧
    ([("a", Json.num (mkRat 1 1))] : Record) ≠ [] ∧
    (queryJson (fun _ => Except.ok "\x7b\"a\": 1\x7d") 0).degraded = false ∧
    (queryJson (fun _ => Except.ok "\x7b\"a\": 1\x7d") 0).record ≠ [] :=
  ⟨rfl, strategies_return_nonempty_records.1 _ _ strategies_return_nonempty_records.2.2.1,
   rfl, strategies_return_nonempty_records.2.1 (fun _ => Except.ok "\x7b\"a\": 1\x7d") 0 rfl⟩

end AgentReasoning
